import Mathlib

/-!
Shallow embedding of the lesson-booking core of the tutor_projects
repository (apps `teaching`): the slot validator implemented in
`teaching/serializers.py` (`LessonDetailSerializer.validate_start_time`
and `LessonDetailSerializer.validate`), the lesson persistence hook
`Lesson.save` in `teaching/models.py`, the schedule create/update
pipeline (`ScheduleSerializer.validate`, `ScheduleViewSet.perform_create`
in `teaching/views.py`), and the availability computation
(`TeacherAvailabilityView.get` in `teaching/views.py`).

Conventions of the embedding:
* Absolute timestamps are natural numbers counting seconds since a
  reference Monday 00:00:00 (so `t / 86400 % 7` is Python's
  `weekday()` with Monday = 0, and `t % 86400` is the time of day in
  seconds).  Times of day (`TimeField`) are seconds in `[0, 86400)`;
  `23:59:59` is `86399`.  The source compares timestamps at microsecond
  precision; no claim distinguishes sub-second values, so the embedding
  works at second granularity.
* Weekday names (`"monday"` .. `"sunday"`) are represented by the
  numbers 0..6 in that order, matching the list literal used in
  `LessonDetailSerializer.validate` and Python's `weekday()`.
* Django querysets over the `Lesson` and `Schedule` tables are lists of
  records plus explicit filters.  SQL three-valued logic matters in one
  place: the filter `end_time__gt=start_time` is false (not true) for a
  row whose `end_time` is NULL, so such rows are excluded; the
  embedding's `overlapsExisting` reproduces this with a `match` that
  yields `false` for `none`.
-/

/-- `LessonStatus` text choices from `teaching/models.py`. -/
inductive LessonStatus where
  | void
  | approved
  | cancelled_by_teacher
  | cancelled_by_student
  | done
deriving DecidableEq

/-- A row of the `Schedule` table (`teaching/models.py`): one recurring
weekly availability window of a teacher.  `id` is the primary key,
`weekday` is 0..6 (Monday = 0), `start_time`/`end_time` are seconds of
day. -/
structure Schedule where
  id : Nat
  teacher : Nat
  weekday : Nat
  start_time : Nat
  end_time : Nat
deriving DecidableEq

/-- A row of the `Lesson` table (`teaching/models.py`) restricted to the
fields the booking logic reads: teacher, absolute start, optional
absolute end (the column is nullable), and status. -/
structure Lesson where
  teacher : Nat
  start_time : Nat
  end_time : Option Nat
  status : LessonStatus
deriving DecidableEq

/-- Statuses counted as blocking: the queryset filters
`status__in=[LessonStatus.VOID, LessonStatus.APPROVED]`. -/
def isBlocking (s : LessonStatus) : Bool :=
  s == .void || s == .approved

/-- The overlap queryset of `LessonDetailSerializer.validate`
(serializers.py lines 265-270):
`Lesson.objects.filter(teacher=teacher, status__in=[VOID, APPROVED],
start_time__lt=end_time, end_time__gt=start_time).exists()`.
A row with NULL `end_time` fails the SQL comparison
`end_time > start_time`, hence the `none` branch yields `false`. -/
def overlapsExisting (lessons : List Lesson) (teacher start_time end_time : Nat) : Bool :=
  lessons.any fun l =>
    l.teacher == teacher && isBlocking l.status &&
    decide (l.start_time < end_time) &&
    (match l.end_time with
     | some e => decide (start_time < e)
     | none => false)

/-- Outcome of the booking validation, one constructor per rejection
path of `validate_start_time` / `validate` plus `Accepted`. -/
inductive ValidationResult where
  | Accepted
  | PastStart
  | MisalignedStart
  | InvalidDuration
  | SlotTaken
  | OutsideAvailability
deriving DecidableEq

/-- First midnight-crossing queryset (serializers.py lines 283-288): a
window on the start's weekday with `start_time__lte` the lesson's start
time of day and `end_time` exactly 23:59:59. -/
def schedulePart1 (schedules : List Schedule) (teacher day lesson_start : Nat) : Bool :=
  schedules.any fun s =>
    s.teacher == teacher && s.weekday == day &&
    decide (s.start_time ≤ lesson_start) && s.end_time == 86399

/-- Second midnight-crossing queryset (serializers.py lines 299-304): a
window on the next weekday starting exactly at 00:00:00 with
`end_time__gte` the lesson's end time of day. -/
def schedulePart2 (schedules : List Schedule) (teacher next_day lesson_end : Nat) : Bool :=
  schedules.any fun s =>
    s.teacher == teacher && s.weekday == next_day &&
    s.start_time == 0 && decide (lesson_end ≤ s.end_time)

/-- Single-window full-coverage queryset (serializers.py lines 313-318). -/
def scheduleFull (schedules : List Schedule) (teacher day lesson_start lesson_end : Nat) : Bool :=
  schedules.any fun s =>
    s.teacher == teacher && s.weekday == day &&
    decide (s.start_time ≤ lesson_start) && decide (lesson_end ≤ s.end_time)

/-- The availability-coverage block of `LessonDetailSerializer.validate`
(serializers.py lines 278-344): split on midnight crossing
(`lesson_end_time <= lesson_start_time`); in the crossing case require
both midnight querysets; otherwise require a single covering window,
falling back for a 2-hour request to one window per hour. -/
def coverageCheck (schedules : List Schedule) (teacher start_time duration_hours : Nat) :
    ValidationResult :=
  if (start_time + duration_hours * 3600) % 86400 ≤ start_time % 86400 then
    if schedulePart1 schedules teacher (start_time / 86400 % 7) (start_time % 86400) &&
       schedulePart2 schedules teacher ((start_time / 86400 % 7 + 1) % 7)
         ((start_time + duration_hours * 3600) % 86400) then .Accepted
    else .OutsideAvailability
  else
    if scheduleFull schedules teacher (start_time / 86400 % 7) (start_time % 86400)
         ((start_time + duration_hours * 3600) % 86400) then .Accepted
    else if duration_hours == 2 then
      if scheduleFull schedules teacher (start_time / 86400 % 7) (start_time % 86400)
           ((start_time + 3600) % 86400) &&
         scheduleFull schedules teacher (start_time / 86400 % 7) ((start_time + 3600) % 86400)
           ((start_time + duration_hours * 3600) % 86400) then
        .Accepted
      else .OutsideAvailability
    else .OutsideAvailability

/-- The booking validator: the composition, in source order, of
`LessonDetailSerializer.validate_start_time` (past check, then
hour-alignment check), the `duration_hours` choice field (choices 1 or
2), and the interval logic of `LessonDetailSerializer.validate`
(overlap queryset at lines 265-276, then the coverage block). -/
def validate (now : Nat) (schedules : List Schedule) (lessons : List Lesson)
    (teacher start_time duration_hours : Nat) : ValidationResult :=
  if start_time < now then .PastStart
  else if start_time % 3600 ≠ 0 then .MisalignedStart
  else if duration_hours ≠ 1 ∧ duration_hours ≠ 2 then .InvalidDuration
  else if overlapsExisting lessons teacher start_time (start_time + duration_hours * 3600) then
    .SlotTaken
  else coverageCheck schedules teacher start_time duration_hours

/-- `Lesson.save` from `teaching/models.py` (lines 111-113), modelling
the insert path used when a new lesson is created: the override calls
`super().save()` (the actual database write, here: appending the row)
only when `start_time` is set and `end_time` is NOT set; otherwise it
silently does nothing.  A Python `datetime` is always truthy, and every
lesson in this embedding carries a start, so the condition reduces to
`end_time` being absent. -/
def lessonSave (store : List Lesson) (l : Lesson) : List Lesson :=
  if l.end_time = none then store ++ [l] else store

/-- The `CreateBooking` operation: `LessonViewSet.perform_create`
(views.py lines 154-192) runs the serializer validation and, when it
succeeds, calls `serializer.save(...)`, which builds the new `Lesson`
row — `LessonDetailSerializer.validate` has set
`end_time = start_time + timedelta(hours=duration_hours)` (serializers.py
lines 253-254) and the model's status default is `VOID` — and hands it
to `Lesson.save`.  Returns the validation outcome and the store after
the call. -/
def createBooking (now : Nat) (schedules : List Schedule) (store : List Lesson)
    (teacher start_time duration_hours : Nat) : ValidationResult × List Lesson :=
  match validate now schedules store teacher start_time duration_hours with
  | .Accepted =>
      (.Accepted,
       lessonSave store
         { teacher := teacher, start_time := start_time,
           end_time := some (start_time + duration_hours * 3600), status := .void })
  | r => (r, store)

/-- The hour-aligned grid walked by the while loops of
`TeacherAvailabilityView.get`: the timestamps `cur, cur + 3600,
cur + 2*3600, ...` while they stay strictly below `stop`. -/
def hourSteps (cur stop : Nat) : List Nat :=
  (List.range ((stop - cur + 3599) / 3600)).map fun i => cur + 3600 * i

/-- The hour timestamps one booked lesson occupies (views.py lines
580-587): with an explicit end, every hour step from `start` while
strictly below `end`; with a NULL end, just the start timestamp. -/
def lessonHours (l : Lesson) : List Nat :=
  match l.end_time with
  | some e => hourSteps l.start_time e
  | none => [l.start_time]

/-- The occupied-hours set of `TeacherAvailabilityView.get` (views.py
lines 572-587): hours of blocking lessons of the teacher whose START
timestamp's calendar date lies in `[date_from, date_to]`
(`start_time__date__gte` / `start_time__date__lte`).  The Python code
uses a set; this list is used only through membership, so duplicates
are irrelevant. -/
def bookedSlots (teacher date_from date_to : Nat) (lessons : List Lesson) : List Nat :=
  (lessons.filter fun l =>
    l.teacher == teacher && isBlocking l.status &&
    decide (date_from ≤ l.start_time / 86400) &&
    decide (l.start_time / 86400 ≤ date_to)).flatMap lessonHours

/-- One availability slot of the response of
`TeacherAvailabilityView.get`. -/
structure AvailabilitySlot where
  start_time : Nat
  can_book_2_hours : Bool
deriving DecidableEq

/-- The inner while loop of `TeacherAvailabilityView.get` (views.py
lines 612-632) for one schedule window materialised on one date:
`slot_start`/`slot_end` are the absolute bounds of the window on that
date; a grid timestamp is offered iff it is not in the occupied set and
is strictly later than `now`; its `can_book_2_hours` flag is set iff
the next grid timestamp is strictly below the window end and not
occupied. -/
def windowSlots (booked : List Nat) (now slot_start slot_end : Nat) : List AvailabilitySlot :=
  (hourSteps slot_start slot_end).filterMap fun t =>
    if t ∈ booked ∨ t ≤ now then none
    else some ⟨t, decide (t + 3600 < slot_end) && decide (t + 3600 ∉ booked)⟩

/-- The per-date slot list (views.py lines 592-632): all windows of the
teacher whose weekday matches the date `d` (a day number; `d % 7` is
its weekday, Monday = 0), each walked by `windowSlots` with its bounds
anchored at `d * 86400`. -/
def daySlots (teacher : Nat) (schedules : List Schedule) (booked : List Nat)
    (now d : Nat) : List AvailabilitySlot :=
  (schedules.filter fun s => s.teacher == teacher && s.weekday == d % 7).flatMap
    fun s => windowSlots booked now (d * 86400 + s.start_time) (d * 86400 + s.end_time)

/-- The inclusive date range `[date_from, date_to]` iterated by the
outer while loop of `TeacherAvailabilityView.get`. -/
def dayRange (date_from date_to : Nat) : List Nat :=
  (List.range (date_to + 1 - date_from)).map fun i => date_from + i

/-- `AvailabilityIndex.compute`, i.e. the body of
`TeacherAvailabilityView.get` (views.py lines 548-638): build the
occupied set, then for every date of the inclusive range collect the
offered slots, keeping only dates with a non-empty slot list. -/
def compute (teacher date_from date_to : Nat) (schedules : List Schedule)
    (lessons : List Lesson) (now : Nat) : List (Nat × List AvailabilitySlot) :=
  (dayRange date_from date_to).filterMap fun d =>
    let daily := daySlots teacher schedules (bookedSlots teacher date_from date_to lessons) now d
    if daily.isEmpty then none else some (d, daily)

/-- Incoming data of a schedule create/update request, after DRF field
deserialisation: each field is present or absent (a PATCH may omit
any of them). -/
structure ScheduleSubmission where
  weekday : Option Nat
  start_time : Option Nat
  end_time : Option Nat

/-- `ScheduleSerializer.validate` (serializers.py lines 78-87): raises
iff both times are present and `start_time >= end_time`.  Returns
`true` when the data passes. -/
def scheduleSerializerValidate (sub : ScheduleSubmission) : Bool :=
  match sub.start_time, sub.end_time with
  | some s, some e => decide (s < e)
  | _, _ => true

/-- Outcome of a schedule create/update: rejected by validation,
crashed (an uncaught `KeyError` when `perform_create` reads a field a
partial update did not submit — no write happens), or saved with the
resulting store. -/
inductive ScheduleOutcome where
  | rejected
  | crashed
  | saved (store : List Schedule)
deriving DecidableEq

/-- `ScheduleViewSet.perform_create` / `perform_update` (views.py lines
64-90) composed with `ScheduleSerializer.validate`: serializer
validation first; then the view reads `start_time`, `end_time`,
`weekday` from `validated_data` (a missing key crashes), runs the
overlap queryset (same teacher and weekday, `start_time__lt` new end,
`end_time__gt` new start, excluding the updated row's pk on update) and
rejects when it is non-empty; otherwise saves — inserting a fresh row
with id `newId` on create (`excludePk = none`), or overwriting the
submitted fields of row `pk` on update (`excludePk = some pk`). -/
def schedulePerformCreate (store : List Schedule) (teacher newId : Nat)
    (sub : ScheduleSubmission) (excludePk : Option Nat) : ScheduleOutcome :=
  if scheduleSerializerValidate sub = false then .rejected
  else
    match sub.start_time, sub.end_time, sub.weekday with
    | some s, some e, some w =>
        if (store.filter fun sc =>
              sc.teacher == teacher && sc.weekday == w &&
              decide (sc.start_time < e) && decide (s < sc.end_time) &&
              (match excludePk with
               | some pk => !(sc.id == pk)
               | none => true)).isEmpty then
          match excludePk with
          | none => .saved (store ++ [⟨newId, teacher, w, s, e⟩])
          | some pk =>
              .saved (store.map fun sc =>
                if sc.id == pk then
                  { sc with weekday := w, start_time := s, end_time := e }
                else sc)
        else .rejected
    | _, _, _ => .crashed

/-- The stored-schedule invariant of the spec: every window has
`start_time < end_time` strictly. -/
def scheduleInvariant (store : List Schedule) : Prop :=
  ∀ sc ∈ store, sc.start_time < sc.end_time

/-! ## Helper lemmas -/

/-- The hour grid contains exactly the `cur + 3600 * i` that lie
strictly below `stop`. -/
theorem mem_hourSteps {t cur stop : Nat} :
    t ∈ hourSteps cur stop ↔ ∃ i, t = cur + 3600 * i ∧ t < stop := by
  simp only [hourSteps, List.mem_map, List.mem_range]
  constructor
  · rintro ⟨i, hi, rfl⟩
    exact ⟨i, rfl, by omega⟩
  · rintro ⟨i, rfl, h⟩
    exact ⟨i, by omega, rfl⟩

/-- Characterisation of a slot produced by one window walk: it is
strictly later than `now`, strictly inside the window, unoccupied, and
its 2-hour flag is exactly the same-window next-hour test. -/
theorem windowSlots_sound {booked : List Nat} {now a b : Nat} {slot : AvailabilitySlot}
    (h : slot ∈ windowSlots booked now a b) :
    now < slot.start_time ∧ slot.start_time < b ∧ slot.start_time ∉ booked ∧
      slot.can_book_2_hours =
        (decide (slot.start_time + 3600 < b) && decide (slot.start_time + 3600 ∉ booked)) := by
  simp only [windowSlots, List.mem_filterMap] at h
  obtain ⟨t, ht, hsome⟩ := h
  by_cases hc : t ∈ booked ∨ t ≤ now
  · rw [if_pos hc] at hsome
    exact absurd hsome (by simp)
  · rw [if_neg hc] at hsome
    push_neg at hc
    obtain rfl := Option.some.inj hsome
    obtain ⟨i, -, hlt⟩ := mem_hourSteps.mp ht
    exact ⟨hc.2, hlt, hc.1, rfl⟩

/-- Membership in `compute` determines the daily slot list. -/
theorem compute_mem {teacher date_from date_to now d : Nat} {schedules : List Schedule}
    {lessons : List Lesson} {daily : List AvailabilitySlot}
    (h : (d, daily) ∈ compute teacher date_from date_to schedules lessons now) :
    daily = daySlots teacher schedules (bookedSlots teacher date_from date_to lessons) now d := by
  simp only [compute, List.mem_filterMap] at h
  obtain ⟨a, -, ha⟩ := h
  split at ha
  · exact absurd ha (by simp)
  · rw [Option.some.injEq, Prod.mk.injEq] at ha
    obtain ⟨rfl, h2⟩ := ha
    exact h2.symm

/-- A slot of a daily list comes from some window of the teacher on that
weekday. -/
theorem daySlots_mem {teacher now d : Nat} {schedules : List Schedule} {booked : List Nat}
    {slot : AvailabilitySlot} (h : slot ∈ daySlots teacher schedules booked now d) :
    ∃ s ∈ schedules, s.teacher = teacher ∧ s.weekday = d % 7 ∧
      slot ∈ windowSlots booked now (d * 86400 + s.start_time) (d * 86400 + s.end_time) := by
  simp only [daySlots, List.mem_flatMap, List.mem_filter, Bool.and_eq_true, beq_iff_eq] at h
  obtain ⟨s, ⟨hs, hteacher, hweekday⟩, hslot⟩ := h
  exact ⟨s, hs, hteacher, hweekday, hslot⟩

/-- Unfolds the overlap queryset into its logical content; the `none`
case of `end_time` contributes nothing. -/
theorem overlapsExisting_eq_true {lessons : List Lesson} {teacher st en : Nat} :
    overlapsExisting lessons teacher st en = true ↔
      ∃ l ∈ lessons, l.teacher = teacher ∧ isBlocking l.status = true ∧
        ∃ e, l.end_time = some e ∧ l.start_time < en ∧ st < e := by
  rw [overlapsExisting, List.any_eq_true]
  constructor
  · rintro ⟨l, hl, hc⟩
    rcases he : l.end_time with _ | e
    · rw [he] at hc
      simp at hc
    · rw [he] at hc
      simp only [Bool.and_eq_true, beq_iff_eq, decide_eq_true_eq] at hc
      exact ⟨l, hl, hc.1.1.1, hc.1.1.2, e, he, hc.1.2, hc.2⟩
  · rintro ⟨l, hl, h1, h2, e, he, h3, h4⟩
    refine ⟨l, hl, ?_⟩
    rw [he]
    simp [h1, h2, h3, h4]

/-- Unfolds the first midnight queryset. -/
theorem schedulePart1_eq_true {schedules : List Schedule} {teacher day lesson_start : Nat} :
    schedulePart1 schedules teacher day lesson_start = true ↔
      ∃ s ∈ schedules, s.teacher = teacher ∧ s.weekday = day ∧
        s.start_time ≤ lesson_start ∧ s.end_time = 86399 := by
  simp [schedulePart1, List.any_eq_true, Bool.and_eq_true, beq_iff_eq,
    decide_eq_true_eq, and_assoc]

/-- Unfolds the second midnight queryset. -/
theorem schedulePart2_eq_true {schedules : List Schedule} {teacher next_day lesson_end : Nat} :
    schedulePart2 schedules teacher next_day lesson_end = true ↔
      ∃ s ∈ schedules, s.teacher = teacher ∧ s.weekday = next_day ∧
        s.start_time = 0 ∧ lesson_end ≤ s.end_time := by
  simp [schedulePart2, List.any_eq_true, Bool.and_eq_true, beq_iff_eq,
    decide_eq_true_eq, and_assoc]

/-- Unfolds the full-coverage queryset. -/
theorem scheduleFull_eq_true {schedules : List Schedule} {teacher day lesson_start lesson_end : Nat} :
    scheduleFull schedules teacher day lesson_start lesson_end = true ↔
      ∃ s ∈ schedules, s.teacher = teacher ∧ s.weekday = day ∧
        s.start_time ≤ lesson_start ∧ lesson_end ≤ s.end_time := by
  simp [scheduleFull, List.any_eq_true, Bool.and_eq_true, beq_iff_eq,
    decide_eq_true_eq, and_assoc]

/-- The coverage block only ever answers `Accepted` or
`OutsideAvailability`. -/
theorem coverageCheck_cases (schedules : List Schedule) (teacher st d : Nat) :
    coverageCheck schedules teacher st d = .Accepted ∨
      coverageCheck schedules teacher st d = .OutsideAvailability := by
  unfold coverageCheck
  repeat first | (left; rfl) | (right; rfl) | split

/-- After the three preliminary checks pass, `validate` is the overlap
test followed by the coverage block. -/
theorem validate_unfold_pre (now : Nat) (schedules : List Schedule) (lessons : List Lesson)
    (teacher st dur : Nat)
    (h1 : ¬ st < now) (h2 : st % 3600 = 0) (h3 : dur = 1 ∨ dur = 2) :
    validate now schedules lessons teacher st dur =
      if overlapsExisting lessons teacher st (st + dur * 3600) then .SlotTaken
      else coverageCheck schedules teacher st dur := by
  unfold validate
  rw [if_neg h1, if_neg (by simp [h2]), if_neg (by rcases h3 with rfl | rfl <;> simp)]

/-! ## Claim theorems -/

/-- C1: the claim says a successful `CreateBooking` persists a lesson
record.  The code contradicts it: `LessonDetailSerializer.validate`
always sets `end_time = start_time + duration`, and the override
`Lesson.save` performs the database write only when `end_time` is NOT
set, so the store is unchanged by every `createBooking` call — in
particular a fully valid, accepted booking (second conjunct) leaves the
store empty. -/
theorem C1_accepted_booking_not_persisted :
    (∀ now schedules store teacher st dur,
        (createBooking now schedules store teacher st dur).2 = store) ∧
      createBooking 0 [⟨1, 1, 0, 0, 86399⟩] [] 1 32400 1 = (.Accepted, []) := by
  constructor
  · intro now schedules store teacher st dur
    unfold createBooking
    split <;> simp [lessonSave]
  · decide

/-- C2 counterexample: the claim says a blocking interval with absent
`end` is treated by the overlap check as spanning one hour from its
start.  Concretely: the teacher has a NULL-end approved lesson at
10:00 Monday (timestamp 36000), whose claimed one-hour span is
`[36000, 39600)`; the request for the very same hour `[36000, 39600)`
intersects it, so the claim demands `SlotTaken` — but the code's
queryset filter `end_time__gt=start_time` is false on a NULL column and
the lesson is ignored: the request is Accepted. -/
theorem C2_counterexample_nullend_interval_ignored :
    validate 0 [⟨1, 1, 0, 0, 86399⟩] [⟨1, 36000, none, .approved⟩] 1 36000 1 = .Accepted ∧
      ValidationResult.Accepted ≠ ValidationResult.SlotTaken := by
  decide

/-- C2 (amended): for requests passing the preliminary checks,
`validate` rejects with `SlotTaken` iff some blocking interval of the
same teacher WITH AN EXPLICIT END satisfies the half-open overlap test;
blocking intervals with absent end are excluded from the overlap check
entirely (SQL NULL comparison), not treated as one-hour spans. -/
theorem C2_amended_overlap_requires_explicit_end (now : Nat) (schedules : List Schedule)
    (lessons : List Lesson) (teacher st dur : Nat)
    (h1 : ¬ st < now) (h2 : st % 3600 = 0) (h3 : dur = 1 ∨ dur = 2) :
    validate now schedules lessons teacher st dur = .SlotTaken ↔
      ∃ l ∈ lessons, l.teacher = teacher ∧ isBlocking l.status = true ∧
        ∃ e, l.end_time = some e ∧ l.start_time < st + dur * 3600 ∧ st < e := by
  rw [validate_unfold_pre now schedules lessons teacher st dur h1 h2 h3,
    ← overlapsExisting_eq_true]
  by_cases hov : overlapsExisting lessons teacher st (st + dur * 3600) = true
  · simp [hov]
  · rw [if_neg hov]
    rcases coverageCheck_cases schedules teacher st dur with hc | hc <;> simp [hc, hov]

/-- C2 witness: the amended iff applied at the NULL-end scenario — the
right-hand side is false there (the only lesson has `end_time = none`),
matching the Accepted outcome. -/
theorem C2_amended_overlap_requires_explicit_end_witness :
    validate 0 [⟨1, 1, 0, 0, 86399⟩] [⟨1, 36000, none, LessonStatus.approved⟩] 1 36000 1 =
        ValidationResult.SlotTaken ↔
      ∃ l ∈ [(⟨1, 36000, none, LessonStatus.approved⟩ : Lesson)], l.teacher = 1 ∧
        isBlocking l.status = true ∧ ∃ e, l.end_time = some e ∧
          l.start_time < 36000 + 1 * 3600 ∧ 36000 < e :=
  C2_amended_overlap_requires_explicit_end 0 [⟨1, 1, 0, 0, 86399⟩]
    [⟨1, 36000, none, LessonStatus.approved⟩] 1 36000 1
    (by decide) (by decide) (Or.inl rfl)

/-- C5: a request that passes the preliminary checks and whose interval
overlaps a blocking explicit-end interval of the same teacher is
rejected with `SlotTaken`, for EVERY window set — the overlap queryset
runs before the availability-coverage block. -/
theorem C5_overlap_precedes_coverage (now : Nat) (schedules : List Schedule)
    (lessons : List Lesson) (teacher st dur : Nat)
    (h1 : ¬ st < now) (h2 : st % 3600 = 0) (h3 : dur = 1 ∨ dur = 2)
    (hov : ∃ l ∈ lessons, l.teacher = teacher ∧ isBlocking l.status = true ∧
      ∃ e, l.end_time = some e ∧ l.start_time < st + dur * 3600 ∧ st < e) :
    validate now schedules lessons teacher st dur = .SlotTaken := by
  rw [validate_unfold_pre now schedules lessons teacher st dur h1 h2 h3,
    if_pos (overlapsExisting_eq_true.mpr hov)]

/-- C5 witness: a pending lesson 10:00-11:00 Monday blocks the same
10:00 request even with an empty window set (no coverage at all). -/
theorem C5_overlap_precedes_coverage_witness :
    validate 0 [] [⟨1, 36000, some 39600, LessonStatus.void⟩] 1 36000 1 = .SlotTaken :=
  C5_overlap_precedes_coverage 0 [] [⟨1, 36000, some 39600, LessonStatus.void⟩] 1 36000 1
    (by decide) (by decide) (Or.inl rfl)
    ⟨⟨1, 36000, some 39600, LessonStatus.void⟩, by simp, rfl, rfl,
      39600, rfl, by decide, by decide⟩

/-- C6 counterexample: the claim says a request with start exactly
equal to the current time is rejected with `PastStart`.  The code's
check is strict (`value < timezone.now()`), so with `now = start =
3600` (Monday 01:00) and a covering window the request is Accepted. -/
theorem C6_counterexample_start_equal_now_not_rejected :
    validate 3600 [⟨1, 1, 0, 0, 86399⟩] [] 1 3600 1 = .Accepted ∧
      ValidationResult.Accepted ≠ ValidationResult.PastStart := by
  decide

/-- C6 (amended): `validate` rejects with `PastStart` exactly when the
requested start is strictly BEFORE the validation time; a start equal
to `now` passes the past check. -/
theorem C6_amended_pastStart_iff_strictly_before (now : Nat) (schedules : List Schedule)
    (lessons : List Lesson) (teacher st dur : Nat) :
    validate now schedules lessons teacher st dur = .PastStart ↔ st < now := by
  unfold validate
  by_cases h : st < now
  · simp [h]
  · rw [if_neg h]
    simp only [h, iff_false]
    split
    · simp
    split
    · simp
    split
    · simp
    rcases coverageCheck_cases schedules teacher st dur with hc | hc <;> simp [hc]

/-- C3: for a request that reaches the coverage block and crosses
midnight (end time-of-day at most start time-of-day), the validator
accepts exactly when (a) some window on the start's weekday has
`start_time` at most the start's time of day and `end_time` exactly
23:59:59, and (b) some window on the next weekday starts exactly at
00:00:00 and ends no earlier than the end's time of day; otherwise the
outcome is `OutsideAvailability` (second conjunct: the only outcomes
are these two).  Concretely: windows Monday 22:00-23:59:59 and Tuesday
00:00:00-02:00:00 make a Monday 23:00 two-hour request Accepted, and
with only the Monday window it is OutsideAvailability. -/
theorem C3_midnight_crossing_coverage :
    (∀ (now : Nat) (schedules : List Schedule) (lessons : List Lesson) (teacher st dur : Nat),
      ¬ st < now → st % 3600 = 0 → (dur = 1 ∨ dur = 2) →
      overlapsExisting lessons teacher st (st + dur * 3600) = false →
      (st + dur * 3600) % 86400 ≤ st % 86400 →
      ((validate now schedules lessons teacher st dur = .Accepted ↔
          ((∃ s ∈ schedules, s.teacher = teacher ∧ s.weekday = st / 86400 % 7 ∧
              s.start_time ≤ st % 86400 ∧ s.end_time = 86399) ∧
           (∃ s ∈ schedules, s.teacher = teacher ∧ s.weekday = (st / 86400 % 7 + 1) % 7 ∧
              s.start_time = 0 ∧ (st + dur * 3600) % 86400 ≤ s.end_time))) ∧
        (validate now schedules lessons teacher st dur = .Accepted ∨
         validate now schedules lessons teacher st dur = .OutsideAvailability))) ∧
      validate 0 [⟨1, 1, 0, 79200, 86399⟩, ⟨2, 1, 1, 0, 7200⟩] [] 1 82800 2 = .Accepted ∧
      validate 0 [⟨1, 1, 0, 79200, 86399⟩] [] 1 82800 2 = .OutsideAvailability := by
  refine ⟨?_, by decide, by decide⟩
  intro now schedules lessons teacher st dur h1 h2 h3 h4 h5
  rw [validate_unfold_pre now schedules lessons teacher st dur h1 h2 h3,
    if_neg (by simp [h4])]
  unfold coverageCheck
  rw [if_pos h5]
  constructor
  · constructor
    · intro hacc
      split at hacc
      · next hb =>
          rw [Bool.and_eq_true] at hb
          exact ⟨schedulePart1_eq_true.mp hb.1, schedulePart2_eq_true.mp hb.2⟩
      · exact absurd hacc (by simp)
    · rintro ⟨hp1, hp2⟩
      have hb : (schedulePart1 schedules teacher (st / 86400 % 7) (st % 86400) &&
          schedulePart2 schedules teacher ((st / 86400 % 7 + 1) % 7)
            ((st + dur * 3600) % 86400)) = true := by
        rw [Bool.and_eq_true]
        exact ⟨schedulePart1_eq_true.mpr hp1, schedulePart2_eq_true.mpr hp2⟩
      rw [if_pos hb]
  · split
    · exact Or.inl rfl
    · exact Or.inr rfl

/-- C3 witness: applying the general statement at the Monday 23:00
scenario; the dichotomy conjunct is extracted. -/
theorem C3_midnight_crossing_coverage_witness :
    validate 0 [⟨1, 1, 0, 79200, 86399⟩, ⟨2, 1, 1, 0, 7200⟩] [] 1 82800 2 =
        ValidationResult.Accepted ∨
      validate 0 [⟨1, 1, 0, 79200, 86399⟩, ⟨2, 1, 1, 0, 7200⟩] [] 1 82800 2 =
        ValidationResult.OutsideAvailability :=
  (C3_midnight_crossing_coverage.1 0 [⟨1, 1, 0, 79200, 86399⟩, ⟨2, 1, 1, 0, 7200⟩] [] 1 82800 2
    (by decide) (by decide) (Or.inr rfl) (by decide) (by decide)).2

/-- C4: for a 2-hour request that reaches the coverage block, does not
cross midnight, and has NO single window covering the full span, the
validator accepts exactly when some window covers the first hour and
some window covers the second hour; otherwise `OutsideAvailability`.
Concretely: two separate Monday windows 09:00-10:00 and 10:00-11:00
make a Monday 09:00 two-hour request Accepted, and with only the first
window it is OutsideAvailability. -/
theorem C4_two_window_fallback :
    (∀ (now : Nat) (schedules : List Schedule) (lessons : List Lesson) (teacher st : Nat),
      ¬ st < now → st % 3600 = 0 →
      overlapsExisting lessons teacher st (st + 2 * 3600) = false →
      ¬ (st + 2 * 3600) % 86400 ≤ st % 86400 →
      ¬ (∃ s ∈ schedules, s.teacher = teacher ∧ s.weekday = st / 86400 % 7 ∧
          s.start_time ≤ st % 86400 ∧ (st + 2 * 3600) % 86400 ≤ s.end_time) →
      ((validate now schedules lessons teacher st 2 = .Accepted ↔
          ((∃ s ∈ schedules, s.teacher = teacher ∧ s.weekday = st / 86400 % 7 ∧
              s.start_time ≤ st % 86400 ∧ (st + 3600) % 86400 ≤ s.end_time) ∧
           (∃ s ∈ schedules, s.teacher = teacher ∧ s.weekday = st / 86400 % 7 ∧
              s.start_time ≤ (st + 3600) % 86400 ∧ (st + 2 * 3600) % 86400 ≤ s.end_time))) ∧
        (validate now schedules lessons teacher st 2 = .Accepted ∨
         validate now schedules lessons teacher st 2 = .OutsideAvailability))) ∧
      validate 0 [⟨1, 1, 0, 32400, 36000⟩, ⟨2, 1, 0, 36000, 39600⟩] [] 1 32400 2 = .Accepted ∧
      validate 0 [⟨1, 1, 0, 32400, 36000⟩] [] 1 32400 2 = .OutsideAvailability := by
  refine ⟨?_, by decide, by decide⟩
  intro now schedules lessons teacher st h1 h2 h4 h5 hfull
  rw [validate_unfold_pre now schedules lessons teacher st 2 h1 h2 (Or.inr rfl),
    if_neg (by simp [h4])]
  unfold coverageCheck
  rw [if_neg h5]
  have hfb : scheduleFull schedules teacher (st / 86400 % 7) (st % 86400)
      ((st + 2 * 3600) % 86400) = false := by
    rw [Bool.eq_false_iff]
    intro hc
    exact hfull (scheduleFull_eq_true.mp hc)
  rw [if_neg (by simp [hfb]), if_pos (show ((2 : Nat) == 2) = true from rfl)]
  constructor
  · constructor
    · intro hacc
      split at hacc
      · next hb =>
          rw [Bool.and_eq_true] at hb
          exact ⟨scheduleFull_eq_true.mp hb.1, scheduleFull_eq_true.mp hb.2⟩
      · exact absurd hacc (by simp)
    · rintro ⟨hp1, hp2⟩
      have hb : (scheduleFull schedules teacher (st / 86400 % 7) (st % 86400)
            ((st + 3600) % 86400) &&
          scheduleFull schedules teacher (st / 86400 % 7) ((st + 3600) % 86400)
            ((st + 2 * 3600) % 86400)) = true := by
        rw [Bool.and_eq_true]
        exact ⟨scheduleFull_eq_true.mpr hp1, scheduleFull_eq_true.mpr hp2⟩
      rw [if_pos hb]
  · split
    · exact Or.inl rfl
    · exact Or.inr rfl

/-- C4 witness: applying the general statement at the Monday 09:00
two-window scenario; the dichotomy conjunct is extracted. -/
theorem C4_two_window_fallback_witness :
    validate 0 [⟨1, 1, 0, 32400, 36000⟩, ⟨2, 1, 0, 36000, 39600⟩] [] 1 32400 2 =
        ValidationResult.Accepted ∨
      validate 0 [⟨1, 1, 0, 32400, 36000⟩, ⟨2, 1, 0, 36000, 39600⟩] [] 1 32400 2 =
        ValidationResult.OutsideAvailability :=
  (C4_two_window_fallback.1 0 [⟨1, 1, 0, 32400, 36000⟩, ⟨2, 1, 0, 36000, 39600⟩] [] 1 32400
    (by decide) (by decide) (by decide) (by decide) (by decide)).2

/-- C7: every slot in the mapping produced by `compute` starts strictly
later than `now`; no slot at or before `now` is ever offered. -/
theorem C7_compute_only_future_slots
    (teacher date_from date_to now d : Nat) (schedules : List Schedule)
    (lessons : List Lesson) (daily : List AvailabilitySlot) (slot : AvailabilitySlot)
    (hmem : (d, daily) ∈ compute teacher date_from date_to schedules lessons now)
    (hslot : slot ∈ daily) : now < slot.start_time := by
  obtain rfl := compute_mem hmem
  obtain ⟨s, -, -, -, hw⟩ := daySlots_mem hslot
  exact (windowSlots_sound hw).1

/-- C7 witness: in the 13:00-16:00 window scenario with the 14:00
lesson booked, the offered 13:00 slot lies strictly after `now = 0`. -/
theorem C7_compute_only_future_slots_witness :
    (0 : Nat) < AvailabilitySlot.start_time ⟨46800, false⟩ :=
  C7_compute_only_future_slots 1 0 0 0 0 [⟨1, 1, 0, 46800, 57600⟩]
    [⟨1, 50400, some 54000, LessonStatus.void⟩] [⟨46800, false⟩, ⟨54000, false⟩]
    ⟨46800, false⟩ (by decide) (by decide)

/-- C8: every offered slot comes from a window of the teacher on that
weekday, and its `can_book_2_hours` flag is true exactly when the next
hour-aligned timestamp is strictly inside THAT SAME window's end bound
and not occupied.  No cross-window stitching happens: with the two
adjacent Monday windows 09:00-10:00 and 10:00-11:00 the 09:00 slot has
`can_book_2_hours = false` (second conjunct) even though `validate`
accepts the 2-hour booking there via its fallback (third conjunct). -/
theorem C8_can_book_2_hours_same_window_only :
    (∀ (teacher date_from date_to now d : Nat) (schedules : List Schedule)
        (lessons : List Lesson) (daily : List AvailabilitySlot) (slot : AvailabilitySlot),
      (d, daily) ∈ compute teacher date_from date_to schedules lessons now →
      slot ∈ daily →
      ∃ s ∈ schedules, s.teacher = teacher ∧ s.weekday = d % 7 ∧
        (slot.can_book_2_hours = true ↔
          (slot.start_time + 3600 < d * 86400 + s.end_time ∧
            slot.start_time + 3600 ∉ bookedSlots teacher date_from date_to lessons))) ∧
      compute 1 0 0 [⟨1, 1, 0, 32400, 36000⟩, ⟨2, 1, 0, 36000, 39600⟩] [] 0 =
        [(0, [⟨32400, false⟩, ⟨36000, false⟩])] ∧
      validate 0 [⟨1, 1, 0, 32400, 36000⟩, ⟨2, 1, 0, 36000, 39600⟩] [] 1 32400 2 =
        .Accepted := by
  refine ⟨?_, by decide, by decide⟩
  intro teacher date_from date_to now d schedules lessons daily slot hmem hslot
  obtain rfl := compute_mem hmem
  obtain ⟨s, hs, hteacher, hweekday, hw⟩ := daySlots_mem hslot
  obtain ⟨-, -, -, hflag⟩ := windowSlots_sound hw
  refine ⟨s, hs, hteacher, hweekday, ?_⟩
  rw [hflag]
  simp [Bool.and_eq_true, decide_eq_true_eq]

/-- C8 witness: the general statement applied to the 09:00 slot of the
two-window scenario. -/
theorem C8_can_book_2_hours_same_window_only_witness :
    ∃ s ∈ [(⟨1, 1, 0, 32400, 36000⟩ : Schedule), ⟨2, 1, 0, 36000, 39600⟩], s.teacher = 1 ∧
      s.weekday = 0 % 7 ∧
      (AvailabilitySlot.can_book_2_hours ⟨32400, false⟩ = true ↔
        (AvailabilitySlot.start_time ⟨32400, false⟩ + 3600 < 0 * 86400 + s.end_time ∧
          AvailabilitySlot.start_time ⟨32400, false⟩ + 3600 ∉ bookedSlots 1 0 0 [])) :=
  C8_can_book_2_hours_same_window_only.1 1 0 0 0 0
    [⟨1, 1, 0, 32400, 36000⟩, ⟨2, 1, 0, 36000, 39600⟩] []
    [⟨32400, false⟩, ⟨36000, false⟩] ⟨32400, false⟩ (by decide) (by decide)

/-- C10: the occupied-hour set is built only from blocking lessons
whose START timestamp's calendar date lies in `[date_from, date_to]`
(first conjunct: a lesson starting outside the range contributes
nothing).  Concretely (second and third conjuncts): an approved lesson
Sunday 23:00 - Monday 01:00 (timestamps 601200-612000) starts on day 6,
outside the queried range `[7, 7]`, so `compute` still offers the
Monday 00:00 slot (604800) — which overlaps that existing booking. -/
theorem C10_occupied_only_for_in_range_start_dates :
    (∀ (teacher date_from date_to : Nat) (l : Lesson) (ls : List Lesson),
      (l.start_time / 86400 < date_from ∨ date_to < l.start_time / 86400) →
      bookedSlots teacher date_from date_to (l :: ls) =
        bookedSlots teacher date_from date_to ls) ∧
      compute 1 7 7 [⟨1, 1, 0, 0, 7200⟩] [⟨1, 601200, some 612000, .approved⟩] 0 =
        [(7, [⟨604800, true⟩, ⟨608400, false⟩])] ∧
      (601200 < 604800 + 3600 ∧ 604800 < 612000) := by
  refine ⟨?_, by decide, by decide⟩
  intro teacher date_from date_to l ls h
  have hcond : (l.teacher == teacher && isBlocking l.status &&
      decide (date_from ≤ l.start_time / 86400) &&
      decide (l.start_time / 86400 ≤ date_to)) = false := by
    rcases h with h | h
    · have hd : decide (date_from ≤ l.start_time / 86400) = false := by
        simp only [decide_eq_false_iff_not]
        omega
      simp [hd]
    · have hd : decide (l.start_time / 86400 ≤ date_to) = false := by
        simp only [decide_eq_false_iff_not]
        omega
      simp [hd]
  simp [bookedSlots, List.filter_cons, hcond]

/-- C10 witness: the midnight-crossing lesson starting on day 6 is
dropped from the occupied set of the range `[7, 7]`. -/
theorem C10_occupied_only_for_in_range_start_dates_witness :
    bookedSlots 1 7 7 [⟨1, 601200, some 612000, LessonStatus.approved⟩] =
      bookedSlots 1 7 7 [] :=
  C10_occupied_only_for_in_range_start_dates.1 1 7 7
    ⟨1, 601200, some 612000, LessonStatus.approved⟩ [] (Or.inl (by decide))

/-- C9: the stored-window invariant `start_time < end_time` is
preserved by every accepted schedule create/update (first conjunct),
and every submission carrying both times with `start_time >= end_time`
is rejected by `ScheduleSerializer.validate` (second conjunct). -/
theorem C9_schedule_invariant_preserved :
    (∀ (store : List Schedule) (teacher newId : Nat) (sub : ScheduleSubmission)
        (excludePk : Option Nat) (next : List Schedule),
      scheduleInvariant store →
      schedulePerformCreate store teacher newId sub excludePk = .saved next →
      scheduleInvariant next) ∧
    (∀ (store : List Schedule) (teacher newId : Nat) (sub : ScheduleSubmission)
        (excludePk : Option Nat) (s e : Nat),
      sub.start_time = some s → sub.end_time = some e → e ≤ s →
      schedulePerformCreate store teacher newId sub excludePk = .rejected) := by
  constructor
  · intro store teacher newId sub excludePk next hinv hsaved
    unfold schedulePerformCreate at hsaved
    split at hsaved
    · exact absurd hsaved (by simp)
    · next hval =>
      split at hsaved
      · next s e w heqs heqe heqw =>
        have hval' : s < e := by
          have ht : scheduleSerializerValidate sub = true := by
            revert hval
            cases scheduleSerializerValidate sub <;> simp
          unfold scheduleSerializerValidate at ht
          rw [heqs, heqe] at ht
          simpa using ht
        split at hsaved
        · split at hsaved
          · injection hsaved with hnext
            subst hnext
            intro sc hsc
            rcases List.mem_append.mp hsc with hmem | hmem
            · exact hinv sc hmem
            · obtain rfl := List.mem_singleton.mp hmem
              exact hval'
          · next pk _ =>
            injection hsaved with hnext
            subst hnext
            intro sc hsc
            obtain ⟨sc0, hsc0, rfl⟩ := List.mem_map.mp hsc
            by_cases hid : (sc0.id == pk) = true
            · rw [if_pos hid]
              exact hval'
            · rw [if_neg hid]
              exact hinv sc0 hsc0
        · exact absurd hsaved (by simp)
      · exact absurd hsaved (by simp)
  · intro store teacher newId sub excludePk s e hs he hle
    unfold schedulePerformCreate
    rw [if_pos]
    rw [scheduleSerializerValidate, hs, he]
    simp only [decide_eq_false_iff_not]
    omega

/-- C9 witness: an accepted create preserves the invariant on a
concrete store, and a reversed submission (10:00-09:00) is rejected. -/
theorem C9_schedule_invariant_preserved_witness :
    scheduleInvariant [⟨1, 1, 0, 32400, 36000⟩] ∧
      schedulePerformCreate [] 1 9 ⟨some 0, some 36000, some 32400⟩ none = .rejected := by
  constructor
  · exact C9_schedule_invariant_preserved.1 [] 1 1 ⟨some 0, some 32400, some 36000⟩ none
      [⟨1, 1, 0, 32400, 36000⟩] (by intro sc hsc; simp at hsc) (by decide)
  · exact C9_schedule_invariant_preserved.2 [] 1 9 ⟨some 0, some 36000, some 32400⟩ none
      36000 32400 rfl rfl (by omega)
